import Mathlib

/-!
Verification of the CometBFT mempool lane validator and mempool gossip
reactor, shallowly embedded from the Go sources
(`mempool/lanes_info.go` and the mempool reactor file).

Go maps are modelled as association lists with distinct keys (the key
distinctness of a Go map is carried as a `Nodup` hypothesis where a
theorem needs it).  `uint32` priorities are modelled as `Nat`, `int64`
heights as `Int`, transaction bytes as `List Nat`, and the content hash
`tx.Key()` as the transaction bytes themselves (an injective identity).
-/

namespace CometBFT

/-! ### Lane validator (`mempool/lanes_info.go`) -/

/-- `LaneData`: a lane configuration, `lanes` being the Go
`map[string]uint32` from lane name to priority, plus the default lane. -/
structure LaneData where
  lanes : List (String × Nat)
  defaultLane : String
  deriving DecidableEq, Repr

/-- The four structured validation errors of `lanes_info.go`; each carries
the offending configuration, as in the Go `Info` field. -/
inductive LanesError where
  | ErrEmptyLanesDefaultLaneSet (info : LaneData)
  | ErrBadDefaultLaneNonEmptyLaneList (info : LaneData)
  | ErrDefaultLaneNotInList (info : LaneData)
  | ErrRepeatedLanes (info : LaneData)
  deriving DecidableEq, Repr

/-- The conversion `types.LaneID(laneID)` from a lane name to its internal
identifier: `LaneID` is a string type, so the conversion is the identity. -/
def toLaneID (s : String) : String := s

/-- The keys of the lane map (range over `info.lanes`). -/
def laneKeys (info : LaneData) : List String := info.lanes.map Prod.fst

/-- `validate` from `lanes_info.go`, check for check:
nil when no lanes and no default; `ErrEmptyLanesDefaultLaneSet` when the
lane list is empty but a default is set; `ErrBadDefaultLaneNonEmptyLaneList`
when lanes exist but the default name is empty; `ErrDefaultLaneNotInList`
when the default is not a key of the map; `ErrRepeatedLanes` when the lane
names collapse under the `LaneID` conversion (the `lanesSet` size check);
else nil.  `none` models a nil error. -/
def validate (info : LaneData) : Option LanesError :=
  if info.lanes.length = 0 ∧ info.defaultLane = "" then
    none
  else if info.lanes.length = 0 ∧ info.defaultLane ≠ "" then
    some (.ErrEmptyLanesDefaultLaneSet info)
  else if info.defaultLane = "" ∧ info.lanes.length ≠ 0 then
    some (.ErrBadDefaultLaneNonEmptyLaneList info)
  else if info.defaultLane ∉ laneKeys info then
    some (.ErrDefaultLaneNotInList info)
  else if info.lanes.length ≠ ((laneKeys info).map toLaneID).dedup.length then
    some (.ErrRepeatedLanes info)
  else
    none

/-- `BuildLanesInfo` from `lanes_info.go`: wrap the inputs in a `LaneData`,
validate, and return the data on success or the error on failure.  The Go
`(*LaneData, error)` pair is modelled as an `Except`. -/
def BuildLanesInfo (laneList : List (String × Nat)) (defLane : String) :
    Except LanesError LaneData :=
  let info : LaneData := { lanes := laneList, defaultLane := defLane }
  match validate info with
  | some err => .error err
  | none => .ok info

/-! ### Broadcast reactor: sender map (the reactor's `txSenders` field) -/

/-- Raw transaction bytes (`types.Tx`). -/
abbrev Tx := List Nat

/-- `types.TxKey`, the content hash identifying a transaction; the hash is
modelled as the bytes themselves (an injective identity). -/
abbrev TxKey := List Nat

/-- The mempool-internal peer id (`uint16`); its 16-bit width plays no
role in the claims, so it is a `Nat`. -/
abbrev PeerId := Nat

/-- `tx.Key()`. -/
def txKey (t : Tx) : TxKey := t

/-- The reactor's `txSenders map[types.TxKey]map[uint16]bool`, modelled as
an association list from key to the list of peer ids in the inner set. -/
abbrev SenderMap := List (TxKey × List PeerId)

/-- Go map indexing `m[txKey]` with its `ok` flag: the value bound to the
first entry for the key, if any. -/
def smLookup (m : SenderMap) (k : TxKey) : Option (List PeerId) :=
  match m with
  | [] => none
  | e :: rest => if e.1 = k then some e.2 else smLookup rest k

/-- The in-place update `sendersSet[senderID] = true` of the inner set
bound to `k` (a Go map holds one binding per key, so only the first entry
is updated). -/
def smUpdate (m : SenderMap) (k : TxKey) (id : PeerId) : SenderMap :=
  match m with
  | [] => []
  | e :: rest =>
    if e.1 = k then (e.1, if id ∈ e.2 then e.2 else id :: e.2) :: rest
    else e :: smUpdate rest k id

/-- `Reactor.isSender`: look the key up in `txSenders`; absent keys give
false, present keys give the inner set's membership of the peer id. -/
def isSender (m : SenderMap) (k : TxKey) (id : PeerId) : Bool :=
  match smLookup m k with
  | some s => decide (id ∈ s)
  | none => false

/-- `Reactor.addSender`: if an entry for the key exists, add the sender id
to its set and return false; otherwise create a fresh singleton entry and
return true.  The returned pair is (new map, Go return value). -/
def addSender (m : SenderMap) (k : TxKey) (id : PeerId) : SenderMap × Bool :=
  match smLookup m k with
  | some _ => (smUpdate m k id, false)
  | none => ((k, [id]) :: m, true)

/-- `Reactor.removeSenders`: `delete(memR.txSenders, txKey)` removes the
key's binding (every entry for the key, under the Go-map reading). -/
def removeSenders (m : SenderMap) (k : TxKey) : SenderMap :=
  match m with
  | [] => []
  | e :: rest => if e.1 = k then removeSenders rest k else e :: removeSenders rest k

/-- `Reactor.updateSendersRoutine`: drain the mempool's `TxsRemoved`
channel, calling `removeSenders` on each delivered key.  The keys drained
before quitting are given as a list, consumed in order. -/
def updateSendersRun (m : SenderMap) (removedKeys : List TxKey) : SenderMap :=
  match removedKeys with
  | [] => m
  | k :: rest => updateSendersRun (removeSenders m k) rest

/-! ### Broadcast reactor: per-peer broadcast loop (`broadcastTxRoutine`) -/

/-- A `*mempoolTx` as seen by the loop: the transaction and the height at
which it was admitted (`memTx.Height()`, an `int64`). -/
structure MempoolTx where
  tx : Tx
  height : Int
  deriving DecidableEq, Repr

/-- The environment one loop iteration observes: the clist contents in
order (`TxsFront` is the head), the reactor's sender map, the peer state's
height (`none` while `peer.Get(types.PeerStateKey)` has no `PeerState`
yet), and whether `peer.Send` would succeed this iteration.  Concurrent
mutation by other goroutines is modelled by letting the environment differ
between iterations. -/
structure IterEnv where
  pool : List MempoolTx
  senders : SenderMap
  peerHeight : Option Int
  sendOK : Bool
  deriving DecidableEq, Repr

/-- What one iteration of `broadcastTxRoutine`'s `for` loop did. -/
inductive Action where
  | waitedEmpty
  | sleptNoPeerState
  | throttled
  | skippedKnownSender (t : Tx)
  | sentOK (t : Tx)
  | sendFailed (t : Tx)
  deriving DecidableEq, Repr

/-- `next.Next()` after `next.NextWaitChan()` fired: the element after
`cur` in the current list, or `none` when `cur` itself was removed (the
wait channel fires on removal and `Next` is nil, forcing a restart from
`TxsFront`). -/
def nextAfter (pool : List MempoolTx) (cur : MempoolTx) : Option MempoolTx :=
  match pool with
  | [] => none
  | e :: rest => if e = cur then rest.head? else nextAfter rest cur

/-- The body of one `broadcastTxRoutine` iteration once a current element
`memTx` is in hand: sleep on a missing peer state; sleep without advancing
when `peerState.GetHeight() < memTx.Height()-1`; skip a known sender
(advancing); send and advance on `peer.Send` success; sleep without
advancing on send failure.  Returns the action taken and the cursor for
the next iteration. -/
def iterOn (peerID : PeerId) (env : IterEnv) (memTx : MempoolTx) :
    Action × Option MempoolTx :=
  match env.peerHeight with
  | none => (.sleptNoPeerState, some memTx)
  | some h =>
    if h < memTx.height - 1 then (.throttled, some memTx)
    else if isSender env.senders (txKey memTx.tx) peerID then
      (.skippedKnownSender memTx.tx, nextAfter env.pool memTx)
    else if env.sendOK then (.sentOK memTx.tx, nextAfter env.pool memTx)
    else (.sendFailed memTx.tx, some memTx)

/-- One loop iteration: a nil cursor is replaced by `TxsFront()` (after
the `TxsWaitChan` wait); if the pool is still empty the loop just waits
again, else the iteration continues on the current element via `iterOn`. -/
def loopIter (peerID : PeerId) (env : IterEnv) (cursor : Option MempoolTx) :
    Action × Option MempoolTx :=
  match cursor with
  | none =>
    match env.pool.head? with
    | none => (.waitedEmpty, none)
    | some front => iterOn peerID env front
  | some c => iterOn peerID env c

/-- Run the broadcast loop for one iteration per environment snapshot,
threading the cursor; returns the actions in order and the final cursor. -/
def loopRun (peerID : PeerId) (envs : List IterEnv) (cursor : Option MempoolTx) :
    List Action × Option MempoolTx :=
  match envs with
  | [] => ([], cursor)
  | e :: rest =>
    let step := loopIter peerID e cursor
    let cont := loopRun peerID rest step.2
    (step.1 :: cont.1, cont.2)

/-! ### Broadcast reactor: inbound message handling (`Receive`) -/

/-- The result of `mempool.CheckTx` as `Receive` sees it: nil, the
`ErrTxInCache` duplicate error, or any other admission error. -/
inductive AdmissionError where
  | txInCache
  | rejected (reason : Nat)
  deriving DecidableEq, Repr

/-- An inbound envelope's message on the mempool channel: a `protomem.Txs`
batch, or a message of any other type. -/
inductive Message where
  | txs (payload : List Tx)
  | other
  deriving DecidableEq, Repr

/-- The observable calls `Receive` makes for one transaction payload, in
program order: `addSender` on the payload's key, then `CheckTx` (whose
result is logged and otherwise ignored). -/
inductive RecvEvent where
  | addSenderEv (k : TxKey) (id : PeerId)
  | checkTxEv (t : Tx) (result : Option AdmissionError)
  deriving DecidableEq, Repr

/-- Outcome of `Receive` on one envelope: the ordered calls it made, the
sender map afterwards, and whether `Switch.StopPeerForError` was called on
the source peer. -/
structure RecvResult where
  events : List RecvEvent
  senders : SenderMap
  stopPeer : Bool
  deriving DecidableEq, Repr

/-- The `for _, txBytes := range protoTxs` body of `Receive`: for each
payload, record the source peer as sender of its key, then call `CheckTx`;
`ck` gives each call's result, which only selects a log line and never
stops the iteration. -/
def processTxs (ck : Tx → Option AdmissionError) (senderID : PeerId)
    (senders : SenderMap) : List Tx → List RecvEvent × SenderMap
  | [] => ([], senders)
  | t :: rest =>
    let s1 := (addSender senders (txKey t) senderID).1
    let tail := processTxs ck senderID s1 rest
    (.addSenderEv (txKey t) senderID :: .checkTxEv t (ck t) :: tail.1, tail.2)

/-- `Reactor.Receive`: a `Txs` batch with an empty list is logged and
discarded (no disconnect); a non-empty batch is processed transaction by
transaction; a message of any other type stops the source peer with an
error. -/
def receive (ck : Tx → Option AdmissionError) (senderID : PeerId)
    (senders : SenderMap) (m : Message) : RecvResult :=
  match m with
  | .txs payload =>
    if payload.length = 0 then { events := [], senders := senders, stopPeer := false }
    else
      let r := processTxs ck senderID senders payload
      { events := r.1, senders := r.2, stopPeer := false }
  | .other => { events := [], senders := senders, stopPeer := true }

/-! ### Concrete scenario data for the gossip re-send trace -/

/-- First iteration environment of the re-send scenario: the pool holds
transactions `[1]` and `[2]` (both admitted at height 1), no sender is
recorded, the peer reports height 5, and sends succeed. -/
def resendEnv1 : IterEnv := ⟨[⟨[1], 1⟩, ⟨[2], 1⟩], [], some 5, true⟩

/-- Later environments of the re-send scenario: transaction `[2]` has been
removed from the pool (transaction `[1]` remains) and peer 1 is recorded
as a sender of `[2]` only. -/
def resendEnv2 : IterEnv := ⟨[⟨[1], 1⟩], [([2], [1])], some 5, true⟩

/-! ### Helper lemmas about the sender map -/

theorem isSender_of_smLookup_none {m : SenderMap} {k : TxKey} (p : PeerId)
    (h : smLookup m k = none) : isSender m k p = false := by
  unfold isSender
  rw [h]

theorem smLookup_smUpdate_self {m : SenderMap} {k : TxKey} {id : PeerId}
    {s : List PeerId} (h : smLookup m k = some s) :
    smLookup (smUpdate m k id) k = some (if id ∈ s then s else id :: s) := by
  induction m with
  | nil => simp [smLookup] at h
  | cons e rest ih =>
    by_cases he : e.1 = k
    · unfold smLookup at h
      rw [if_pos he] at h
      obtain rfl : e.2 = s := Option.some.inj h
      simp [smUpdate, smLookup, he]
    · unfold smLookup at h
      rw [if_neg he] at h
      simp only [smUpdate, smLookup, if_neg he]
      exact ih h

theorem smLookup_smUpdate_other {m : SenderMap} {k k' : TxKey} {id : PeerId}
    (h : k' ≠ k) : smLookup (smUpdate m k id) k' = smLookup m k' := by
  induction m with
  | nil => rfl
  | cons e rest ih =>
    by_cases he : e.1 = k
    · simp [smUpdate, smLookup, he, Ne.symm h]
    · by_cases he2 : e.1 = k'
      · simp [smUpdate, smLookup, he, he2, h]
      · simp [smUpdate, smLookup, he, he2, ih]

theorem isSender_addSender_self (m : SenderMap) (k : TxKey) (id : PeerId) :
    isSender (addSender m k id).1 k id = true := by
  unfold addSender
  cases h : smLookup m k with
  | none => simp [isSender, smLookup]
  | some s =>
    simp only [isSender, smLookup_smUpdate_self h]
    split_ifs with hmem <;> simp [hmem]

theorem isSender_addSender_other {m : SenderMap} {k k' : TxKey} {id : PeerId}
    (p : PeerId) (h : k' ≠ k) :
    isSender (addSender m k id).1 k' p = isSender m k' p := by
  unfold addSender
  cases hlk : smLookup m k with
  | none =>
    have h2 : ¬ k = k' := fun hk => h hk.symm
    simp [isSender, smLookup, h2]
  | some s => simp only [isSender, smLookup_smUpdate_other h]

theorem isSender_addSender_mono {m : SenderMap} {k k' : TxKey} {id p : PeerId}
    (h : isSender m k' p = true) : isSender (addSender m k id).1 k' p = true := by
  by_cases hk : k' = k
  · subst hk
    cases hlk : smLookup m k' with
    | none =>
      unfold isSender at h
      rw [hlk] at h
      simp at h
    | some s =>
      unfold isSender at h
      rw [hlk] at h
      unfold addSender
      rw [hlk]
      simp only [isSender, smLookup_smUpdate_self hlk]
      split_ifs with hmem <;> simp_all
  · rw [isSender_addSender_other p hk]
    exact h

theorem smLookup_removeSenders_self (m : SenderMap) (k : TxKey) :
    smLookup (removeSenders m k) k = none := by
  induction m with
  | nil => rfl
  | cons e rest ih =>
    by_cases he : e.1 = k
    · simp [removeSenders, he, ih]
    · simp [removeSenders, smLookup, he, ih]

theorem smLookup_removeSenders_other {m : SenderMap} {k k' : TxKey}
    (h : k' ≠ k) : smLookup (removeSenders m k) k' = smLookup m k' := by
  induction m with
  | nil => rfl
  | cons e rest ih =>
    by_cases he : e.1 = k
    · simp [removeSenders, smLookup, he, Ne.symm h, ih]
    · by_cases he2 : e.1 = k'
      · simp [removeSenders, smLookup, he, he2, h]
      · simp [removeSenders, smLookup, he, he2, ih]

theorem removeSenders_idem (m : SenderMap) (k : TxKey) :
    removeSenders (removeSenders m k) k = removeSenders m k := by
  induction m with
  | nil => rfl
  | cons e rest ih => by_cases he : e.1 = k <;> simp [removeSenders, he, ih]

theorem smLookup_updateSendersRun_none {k : TxKey} (keys : List TxKey) :
    ∀ {m : SenderMap}, smLookup m k = none →
      smLookup (updateSendersRun m keys) k = none := by
  induction keys with
  | nil => intro m h; exact h
  | cons k0 rest ih =>
    intro m h
    unfold updateSendersRun
    apply ih
    by_cases hk : k = k0
    · rw [hk]
      exact smLookup_removeSenders_self m k0
    · rw [smLookup_removeSenders_other hk]
      exact h

/-! ### Helper lemmas about the broadcast loop and Receive -/

theorem iterOn_send_isSender_false (pid : PeerId) (env : IterEnv)
    (m : MempoolTx) (t : Tx)
    (h : (iterOn pid env m).1 = .sentOK t ∨ (iterOn pid env m).1 = .sendFailed t) :
    isSender env.senders (txKey t) pid = false := by
  obtain ⟨pool, senders, ph, sOK⟩ := env
  cases ph with
  | none =>
    simp only [iterOn] at h
    rcases h with h | h <;> simp at h
  | some hh =>
    simp only [iterOn] at h
    by_cases hlt : hh < m.height - 1
    · rw [if_pos hlt] at h
      rcases h with h | h <;> simp at h
    · rw [if_neg hlt] at h
      split_ifs at h with h1 h2 <;> rcases h with h | h <;> simp_all

theorem loopIter_send_isSender_false (pid : PeerId) (env : IterEnv)
    (cursor : Option MempoolTx) (t : Tx)
    (h : (loopIter pid env cursor).1 = .sentOK t ∨
      (loopIter pid env cursor).1 = .sendFailed t) :
    isSender env.senders (txKey t) pid = false := by
  unfold loopIter at h
  cases cursor with
  | some c => exact iterOn_send_isSender_false pid env c t h
  | none =>
    cases hp : env.pool.head? with
    | none =>
      rw [hp] at h
      rcases h with h | h <;> simp at h
    | some front =>
      rw [hp] at h
      exact iterOn_send_isSender_false pid env front t h

theorem processTxs_events (ck : Tx → Option AdmissionError) (pid : PeerId)
    (payload : List Tx) : ∀ (s : SenderMap),
    (processTxs ck pid s payload).1 =
      payload.flatMap
        (fun t => [RecvEvent.addSenderEv (txKey t) pid, RecvEvent.checkTxEv t (ck t)]) := by
  induction payload with
  | nil => intro s; rfl
  | cons t rest ih =>
    intro s
    simp [processTxs, ih]

theorem processTxs_isSender_mono (ck : Tx → Option AdmissionError) (pid : PeerId)
    (payload : List Tx) : ∀ (s : SenderMap) (k : TxKey) (p : PeerId),
    isSender s k p = true →
    isSender (processTxs ck pid s payload).2 k p = true := by
  induction payload with
  | nil => intro s k p h; exact h
  | cons t rest ih =>
    intro s k p h
    simp only [processTxs]
    exact ih _ k p (isSender_addSender_mono h)

theorem processTxs_records_sender (ck : Tx → Option AdmissionError) (pid : PeerId)
    (payload : List Tx) : ∀ (s : SenderMap) (t : Tx), t ∈ payload →
    isSender (processTxs ck pid s payload).2 (txKey t) pid = true := by
  induction payload with
  | nil => intro s t h; cases h
  | cons t0 rest ih =>
    intro s t h
    simp only [processTxs]
    rcases List.mem_cons.mp h with h1 | h1
    · subst h1
      exact processTxs_isSender_mono ck pid rest _ _ _
        (isSender_addSender_self s (txKey t) pid)
    · exact ih _ t h1

theorem flatMap_sender_before_check (ck : Tx → Option AdmissionError) (pid : PeerId)
    (payload : List Tx) : ∀ (t : Tx), t ∈ payload →
    ∃ i j : Nat, i < j ∧
      (payload.flatMap
        (fun u => [RecvEvent.addSenderEv (txKey u) pid, RecvEvent.checkTxEv u (ck u)]))[i]? =
        some (RecvEvent.addSenderEv (txKey t) pid) ∧
      (payload.flatMap
        (fun u => [RecvEvent.addSenderEv (txKey u) pid, RecvEvent.checkTxEv u (ck u)]))[j]? =
        some (RecvEvent.checkTxEv t (ck t)) := by
  induction payload with
  | nil => intro t h; cases h
  | cons t0 rest ih =>
    intro t h
    rcases List.mem_cons.mp h with h1 | h1
    · subst h1
      refine ⟨0, 1, by omega, ?_, ?_⟩ <;> simp
    · obtain ⟨i, j, hij, hi, hj⟩ := ih t h1
      refine ⟨i + 2, j + 2, by omega, ?_, ?_⟩ <;>
        simp [List.getElem?_cons_succ, hi, hj]

/-! ### Theorems about the lane validator -/

/-- Claim C1: for every lane configuration (keys distinct, as in a Go map),
`validate` settles the four invariants of the spec in order, returning a
distinct error per invariant: the nil result and each error kind hold
exactly on the stated condition, so exactly one of
{valid, ErrEmptyLanesDefaultLaneSet, ErrBadDefaultLaneNonEmptyLaneList,
ErrDefaultLaneNotInList, ErrRepeatedLanes} holds, matching the violated
invariant (distinct map keys never collapse under the identity `LaneID`
conversion, so `ErrRepeatedLanes` never fires and invariant 4 is never
violated). -/
theorem lanes_validate_exactly_one (info : LaneData)
    (hnd : (laneKeys info).Nodup) :
    (validate info = none ↔
      (info.lanes = [] ∧ info.defaultLane = "") ∨
      (info.lanes ≠ [] ∧ info.defaultLane ≠ "" ∧ info.defaultLane ∈ laneKeys info)) ∧
    (validate info = some (.ErrEmptyLanesDefaultLaneSet info) ↔
      info.lanes = [] ∧ info.defaultLane ≠ "") ∧
    (validate info = some (.ErrBadDefaultLaneNonEmptyLaneList info) ↔
      info.lanes ≠ [] ∧ info.defaultLane = "") ∧
    (validate info = some (.ErrDefaultLaneNotInList info) ↔
      info.lanes ≠ [] ∧ info.defaultLane ≠ "" ∧ info.defaultLane ∉ laneKeys info) ∧
    (∀ e, validate info ≠ some (.ErrRepeatedLanes e)) := by
  have hmap : (laneKeys info).map toLaneID = laneKeys info := by
    simp only [show toLaneID = id from rfl, List.map_id]
  have hlen : (laneKeys info).length = info.lanes.length := by
    simp [laneKeys]
  have hdedup : ((laneKeys info).map toLaneID).dedup.length = info.lanes.length := by
    rw [hmap, List.dedup_eq_self.mpr hnd, hlen]
  unfold validate
  split_ifs with h1 h2 h3 h4 h5 <;>
    simp_all [List.length_eq_zero]

/-- Witness for C1 at two concrete configurations. -/
theorem lanes_validate_exactly_one_witness :
    validate ⟨[("a", 1)], "a"⟩ = none ∧
    validate ⟨[], "b"⟩ = some (.ErrEmptyLanesDefaultLaneSet ⟨[], "b"⟩) :=
  ⟨(lanes_validate_exactly_one ⟨[("a", 1)], "a"⟩ (by decide)).1.mpr
      (Or.inr ⟨by decide, by decide, by decide⟩),
    (lanes_validate_exactly_one ⟨[], "b"⟩ (by decide)).2.1.mpr ⟨rfl, by decide⟩⟩

/-- Counterexample to claim C7: the configuration with a single lane `"a"`
of numeric priority 0 as the default lane is accepted by `validate`,
though lanes exist and the default lane's numeric value is 0.  The
validator never inspects the numeric value of the default lane. -/
theorem default_lane_zero_accepted :
    validate ⟨[("a", 0)], "a"⟩ = none ∧
    ([("a", 0)] : List (String × Nat)) ≠ [] ∧
    List.lookup "a" [("a", 0)] = some 0 := by decide

/-- Claim C7 (amended): for every configuration in which lanes exist, the
validator accepts only if the default lane's name is non-empty (the empty
name being the reserved "no lanes configured" marker) and names a
configured lane; the default lane's numeric priority is not checked. -/
theorem default_lane_name_nonempty (info : LaneData)
    (hne : info.lanes ≠ []) (hok : validate info = none) :
    info.defaultLane ≠ "" ∧ info.defaultLane ∈ laneKeys info := by
  unfold validate at hok
  split_ifs at hok with h1 h2 h3 h4 h5 <;>
    simp_all [List.length_eq_zero]

/-- Witness for the amended C7 at a concrete configuration. -/
theorem default_lane_name_nonempty_witness :
    (⟨[("a", 1)], "a"⟩ : LaneData).defaultLane ≠ "" ∧
    (⟨[("a", 1)], "a"⟩ : LaneData).defaultLane ∈ laneKeys ⟨[("a", 1)], "a"⟩ :=
  default_lane_name_nonempty ⟨[("a", 1)], "a"⟩ (by decide) (by decide)

/-- Claim C8: `BuildLanesInfo` returns a valid configuration unchanged
(the returned `LaneData` holds exactly the given lane list and default
lane) and no error; on an invalid configuration it returns no data,
only the structured validation error. -/
theorem BuildLanesInfo_contract (laneList : List (String × Nat)) (defLane : String) :
    (validate ⟨laneList, defLane⟩ = none →
      BuildLanesInfo laneList defLane = .ok ⟨laneList, defLane⟩) ∧
    (∀ e, validate ⟨laneList, defLane⟩ = some e →
      BuildLanesInfo laneList defLane = .error e) := by
  refine ⟨fun h => ?_, fun e h => ?_⟩ <;> simp [BuildLanesInfo, h]

/-- Witness for C8 at a valid and at an invalid configuration. -/
theorem BuildLanesInfo_contract_witness :
    BuildLanesInfo [("a", 7)] "a" = .ok ⟨[("a", 7)], "a"⟩ ∧
    BuildLanesInfo [] "b" = .error (.ErrEmptyLanesDefaultLaneSet ⟨[], "b"⟩) :=
  ⟨(BuildLanesInfo_contract [("a", 7)] "a").1 (by decide),
    (BuildLanesInfo_contract [] "b").2 _ (by decide)⟩

/-! ### Theorems about the sender map and its cleanup routine -/

/-- Claim C10: the sender-map operations' algebra. `addSender` returns
true exactly when no entry for the key existed; afterwards the added pair
is a sender while other keys are untouched; `removeSenders` leaves no
sender for the key and is idempotent; a key with no entry has no
senders. -/
theorem sender_map_algebra :
    (∀ (m : SenderMap) (k : TxKey) (id : PeerId),
      (addSender m k id).2 = true ↔ smLookup m k = none) ∧
    (∀ (m : SenderMap) (k : TxKey) (id : PeerId),
      isSender (addSender m k id).1 k id = true) ∧
    (∀ (m : SenderMap) (k : TxKey) (id : PeerId) (k' : TxKey) (p : PeerId),
      k' ≠ k → isSender (addSender m k id).1 k' p = isSender m k' p) ∧
    (∀ (m : SenderMap) (k : TxKey) (p : PeerId),
      isSender (removeSenders m k) k p = false) ∧
    (∀ (m : SenderMap) (k : TxKey),
      removeSenders (removeSenders m k) k = removeSenders m k) ∧
    (∀ (m : SenderMap) (k : TxKey) (p : PeerId),
      smLookup m k = none → isSender m k p = false) := by
  refine ⟨fun m k id => ?_, isSender_addSender_self,
    fun m k id k' p h => isSender_addSender_other p h,
    fun m k p => isSender_of_smLookup_none p (smLookup_removeSenders_self m k),
    removeSenders_idem,
    fun m k p h => isSender_of_smLookup_none p h⟩
  unfold addSender
  cases h : smLookup m k <;> simp

/-- Witness for C10 at concrete maps, instantiating in particular the
conjuncts that carry hypotheses. -/
theorem sender_map_algebra_witness :
    (addSender [] [1] 2).2 = true ∧
    isSender (addSender [([3], [4])] [1] 2).1 [3] 4 = isSender [([3], [4])] [3] 4 ∧
    isSender [] [9] 1 = false :=
  ⟨(sender_map_algebra.1 [] [1] 2).mpr rfl,
    sender_map_algebra.2.2.1 [([3], [4])] [1] 2 [3] 4 (by decide),
    sender_map_algebra.2.2.2.2.2 [] [9] 1 rfl⟩

/-- Claim C6: for every key delivered on the "tx removed" channel and
drained by `updateSendersRoutine`, the key's whole sender-map entry is
deleted: once the notifications are consumed the key has no entry and
`isSender` is false for it at every peer. -/
theorem updateSendersRun_deletes_entry (keys : List TxKey) (m : SenderMap)
    (k : TxKey) (hk : k ∈ keys) :
    smLookup (updateSendersRun m keys) k = none ∧
    ∀ p, isSender (updateSendersRun m keys) k p = false := by
  have hnone : ∀ (ks : List TxKey) (m0 : SenderMap), k ∈ ks →
      smLookup (updateSendersRun m0 ks) k = none := by
    intro ks
    induction ks with
    | nil => intro m0 h0; cases h0
    | cons k0 rest ih =>
      intro m0 h0
      unfold updateSendersRun
      rcases List.mem_cons.mp h0 with h1 | h1
      · subst h1
        exact smLookup_updateSendersRun_none rest (smLookup_removeSenders_self m0 k)
      · exact ih _ h1
  exact ⟨hnone keys m hk, fun p => isSender_of_smLookup_none p (hnone keys m hk)⟩

/-- Witness for C6 on a concrete map and notification sequence. -/
theorem updateSendersRun_deletes_entry_witness :
    smLookup (updateSendersRun [([1], [2, 3]), ([4], [5])] [[4], [1]]) [1] = none ∧
    ∀ p, isSender (updateSendersRun [([1], [2, 3]), ([4], [5])] [[4], [1]]) [1] p = false :=
  updateSendersRun_deletes_entry [[4], [1]] [([1], [2, 3]), ([4], [5])] [1] (by decide)

/-- Counterexample to claim C2: a run of peer 1's broadcast loop in which
the peer receives transaction `[1]` by a successful send (iteration 1),
the cursor's element `[2]` is then removed so the traversal restarts from
the front, and iteration 3 sends `[1]` to the same peer again — although
`[1]` stayed in the pool the whole time.  Only received transactions are
recorded in the sender map, so a successful send does not prevent the
re-send. -/
theorem broadcast_resend_after_restart :
    (loopRun 1 [resendEnv1, resendEnv2, resendEnv2] none).1 =
      [.sentOK [1], .skippedKnownSender [2], .sentOK [1]] ∧
    (∀ e ∈ [resendEnv1, resendEnv2, resendEnv2], (⟨[1], 1⟩ : MempoolTx) ∈ e.pool) ∧
    isSender resendEnv1.senders [1] 1 = false := by decide

/-- Claim C2 (amended): a transaction whose key is recorded in the Sender
Map for peer P at every iteration of P's broadcast loop is never sent (or
even attempted) to P during that run; a transaction that P received only
via a successful send is not recorded and may be re-sent if the traversal
restarts from the front while it is still in the pool. -/
theorem broadcast_no_send_to_recorded_sender (peerID : PeerId)
    (envs : List IterEnv) (cursor : Option MempoolTx) (k : TxKey)
    (hall : ∀ e ∈ envs, isSender e.senders k peerID = true)
    (t : Tx) (hk : txKey t = k) :
    Action.sentOK t ∉ (loopRun peerID envs cursor).1 ∧
    Action.sendFailed t ∉ (loopRun peerID envs cursor).1 := by
  have main : ∀ (es : List IterEnv) (cur : Option MempoolTx),
      (∀ e ∈ es, isSender e.senders k peerID = true) →
      Action.sentOK t ∉ (loopRun peerID es cur).1 ∧
      Action.sendFailed t ∉ (loopRun peerID es cur).1 := by
    intro es
    induction es with
    | nil => intro cur _; simp [loopRun]
    | cons e rest ih =>
      intro cur hall2
      have hne : isSender e.senders (txKey t) peerID = true := by
        rw [hk]
        exact hall2 e (List.mem_cons_self e rest)
      obtain ⟨ih1, ih2⟩ := ih (loopIter peerID e cur).2
        (fun e2 h2 => hall2 e2 (List.mem_cons_of_mem e h2))
      refine ⟨fun hmem => ?_, fun hmem => ?_⟩
      · simp only [loopRun] at hmem
        rcases List.mem_cons.mp hmem with h | h
        · have hfalse := loopIter_send_isSender_false peerID e cur t (Or.inl h.symm)
          rw [hfalse] at hne
          simp at hne
        · exact ih1 h
      · simp only [loopRun] at hmem
        rcases List.mem_cons.mp hmem with h | h
        · have hfalse := loopIter_send_isSender_false peerID e cur t (Or.inr h.symm)
          rw [hfalse] at hne
          simp at hne
        · exact ih2 h
  exact main envs cursor hall

/-- Witness for the amended C2: a recorded sender is never sent the
recorded transaction in a concrete one-iteration run. -/
theorem broadcast_no_send_to_recorded_sender_witness :
    Action.sentOK [1] ∉ (loopRun 1 [⟨[⟨[1], 1⟩], [([1], [1])], some 5, true⟩] none).1 ∧
    Action.sendFailed [1] ∉ (loopRun 1 [⟨[⟨[1], 1⟩], [([1], [1])], some 5, true⟩] none).1 :=
  broadcast_no_send_to_recorded_sender 1 [⟨[⟨[1], 1⟩], [([1], [1])], some 5, true⟩]
    none [1] (by decide) [1] rfl

/-- Claim C3: with a peer state available, an iteration of the broadcast
loop throttles — sleeps, leaving the cursor on the current transaction —
exactly when the peer's reported height is more than one behind the
transaction's admission height (`h < memTx.Height() - 1`); otherwise the
iteration reaches the send decision (skip as known sender, send, or send
failure). -/
theorem catchup_throttle_iff (pid : PeerId) (env : IterEnv) (c : MempoolTx)
    (h : Int) (hph : env.peerHeight = some h) :
    (loopIter pid env (some c) = (.throttled, some c) ↔ h < c.height - 1) ∧
    (¬ h < c.height - 1 →
      (loopIter pid env (some c)).1 = .skippedKnownSender c.tx ∨
      (loopIter pid env (some c)).1 = .sentOK c.tx ∨
      (loopIter pid env (some c)).1 = .sendFailed c.tx) := by
  simp only [loopIter, iterOn, hph]
  split_ifs with h1 h2 h3 <;> simp_all

/-- Witness for C3: a peer at height 0 is throttled for a transaction
admitted at height 5. -/
theorem catchup_throttle_iff_witness :
    loopIter 1 ⟨[], [], some 0, true⟩ (some ⟨[7], 5⟩) = (.throttled, some ⟨[7], 5⟩) :=
  (catchup_throttle_iff 1 ⟨[], [], some 0, true⟩ ⟨[7], 5⟩ 0 rfl).1.mpr (by decide)

/-- Claim C9: when an iteration's send fails (`peer.Send` returns false),
the failed transaction is the cursor's own and the cursor is left
unchanged — the transaction is delayed, never skipped or dropped. -/
theorem send_failure_keeps_cursor (pid : PeerId) (env : IterEnv)
    (c : MempoolTx) (t : Tx)
    (h : (loopIter pid env (some c)).1 = .sendFailed t) :
    t = c.tx ∧ (loopIter pid env (some c)).2 = some c := by
  obtain ⟨pool, senders, ph, sOK⟩ := env
  cases ph with
  | none =>
    simp only [loopIter, iterOn] at h
    simp at h
  | some hh =>
    simp only [loopIter, iterOn] at h ⊢
    split_ifs at h ⊢ with h1 h2 h3
    all_goals simp_all

/-- Witness for C9 on a concrete failed send. -/
theorem send_failure_keeps_cursor_witness :
    ([1] : Tx) = (⟨[1], 1⟩ : MempoolTx).tx ∧
    (loopIter 1 ⟨[⟨[1], 1⟩], [], some 5, false⟩ (some ⟨[1], 1⟩)).2 = some ⟨[1], 1⟩ :=
  send_failure_keeps_cursor 1 ⟨[⟨[1], 1⟩], [], some 5, false⟩ ⟨[1], 1⟩ [1] (by decide)

/-- Claim C4: `Receive` discards an empty transaction batch without
disconnecting the peer; stops the peer on any other message kind; and on a
batch never stops the peer, processing every transaction of the batch
(each one's `CheckTx` call happens, whatever admission errors `ck`
reports for it or the others). -/
theorem receive_error_handling (ck : Tx → Option AdmissionError)
    (pid : PeerId) (s : SenderMap) :
    receive ck pid s (.txs []) = ⟨[], s, false⟩ ∧
    receive ck pid s .other = ⟨[], s, true⟩ ∧
    (∀ payload, (receive ck pid s (.txs payload)).stopPeer = false) ∧
    (∀ payload, payload ≠ [] → ∀ t ∈ payload,
      RecvEvent.checkTxEv t (ck t) ∈ (receive ck pid s (.txs payload)).events) := by
  refine ⟨rfl, rfl, fun payload => ?_, fun payload hne t ht => ?_⟩
  · by_cases hlen : payload.length = 0 <;> simp [receive, hlen]
  · have hlen : ¬ payload.length = 0 := by
      simpa [List.length_eq_zero] using hne
    have hev : (receive ck pid s (.txs payload)).events =
        (processTxs ck pid s payload).1 := by
      simp [receive, hlen]
    rw [hev, processTxs_events]
    simp only [List.mem_flatMap]
    exact ⟨t, ht, by simp⟩

/-- Witness for C4: both transactions of a batch are checked even though
admission reports every one as already in the cache. -/
theorem receive_error_handling_witness :
    RecvEvent.checkTxEv [9] (some .txInCache) ∈
      (receive (fun _ => some .txInCache) 2 [] (.txs [[9], [8]])).events :=
  (receive_error_handling (fun _ => some .txInCache) 2 []).2.2.2
    [[9], [8]] (by decide) [9] (by decide)

/-- Claim C5: on a non-empty batch, `Receive`'s calls are, for each
payload in order, `addSender` on the payload's key immediately followed by
that payload's `CheckTx`: the event list is exactly that interleaving, for
every payload the `addSender` event occurs at a strictly smaller index
than its `CheckTx` event, and afterwards (hence already when `CheckTx`
ran) the source peer is recorded as a sender of the payload's key. -/
theorem receive_sender_before_checktx (ck : Tx → Option AdmissionError)
    (pid : PeerId) (s : SenderMap) (payload : List Tx) (hne : payload ≠ []) :
    (receive ck pid s (.txs payload)).events =
      payload.flatMap
        (fun t => [RecvEvent.addSenderEv (txKey t) pid, RecvEvent.checkTxEv t (ck t)]) ∧
    (∀ t ∈ payload, ∃ i j : Nat, i < j ∧
      (receive ck pid s (.txs payload)).events[i]? =
        some (RecvEvent.addSenderEv (txKey t) pid) ∧
      (receive ck pid s (.txs payload)).events[j]? =
        some (RecvEvent.checkTxEv t (ck t))) ∧
    (∀ t ∈ payload,
      isSender (receive ck pid s (.txs payload)).senders (txKey t) pid = true) := by
  have hlen : ¬ payload.length = 0 := by
    simpa [List.length_eq_zero] using hne
  have hev : (receive ck pid s (.txs payload)).events =
      (processTxs ck pid s payload).1 := by
    simp [receive, hlen]
  have hsd : (receive ck pid s (.txs payload)).senders =
      (processTxs ck pid s payload).2 := by
    simp [receive, hlen]
  refine ⟨?_, ?_, ?_⟩
  · rw [hev, processTxs_events]
  · intro t ht
    rw [hev, processTxs_events]
    exact flatMap_sender_before_check ck pid payload t ht
  · intro t ht
    rw [hsd]
    exact processTxs_records_sender ck pid payload s t ht

/-- Witness for C5 at a concrete batch. -/
theorem receive_sender_before_checktx_witness :
    isSender (receive (fun _ => some .txInCache) 2 [] (.txs [[9]])).senders [9] 2 = true :=
  (receive_sender_before_checktx (fun _ => some .txInCache) 2 [] [[9]]
    (by decide)).2.2 [9] (by decide)

end CometBFT
